import Mathlib

/-!
Verification of the AI-CHAT-APP chat coordinator against its source.

The embedding models the socket.io backend (`chat-backend/server.js`) and the
relevant pure helpers of the React client (`chat-frontend/src/components/Chat.js`).
JavaScript strings are modelled as `List Char`; the in-memory `Map` objects as
association lists preserving insertion order; the effects of a handler (database
writes, socket emissions, calls to the generation service) as explicit traces.
-/

/-- `startsWithL pat l` is true when `pat` is an initial segment of `l`
(models JavaScript `String.startsWith`). -/
def startsWithL : List Char → List Char → Bool
  | [], _ => true
  | _ :: _, [] => false
  | p :: ps, c :: cs => p == c && startsWithL ps cs

/-- Lexicographic comparison of two character lists by character code, the order
used by the JavaScript default `Array.sort` on strings (code-unit comparison;
they agree on the basic multilingual plane). -/
def listLe : List Char → List Char → Bool
  | [], _ => true
  | _ :: _, [] => false
  | a :: as, b :: bs =>
    if a.toNat < b.toNat then true
    else if b.toNat < a.toNat then false
    else listLe as bs

/-- `Chat.js` lines 7-9: `getDMRoomName = (user1, user2) => [user1, user2].sort().join('-')`. -/
def getDMRoomName (user1 user2 : List Char) : List Char :=
  if listLe user1 user2 then user1 ++ '-' :: user2 else user2 ++ '-' :: user1

/-- The reserved direct-message tag, the characters of `"dm:"`. -/
def dmTagL : List Char := ['d', 'm', ':']

/-- `Chat.js` line 89 (`handleDMClick`): the canonical direct-message room
identifier, the string `dm:` followed by `getDMRoomName` of the two names. -/
def canonicalDirectRoom (user1 user2 : List Char) : List Char :=
  dmTagL ++ getDMRoomName user1 user2

/-- The fixed named channels offered by the client (`Chat.js` line 137). -/
def namedChannels : List (List Char) :=
  ["general".toList, "random".toList, "tech".toList, "gaming".toList]

/-- Character-wise lowercasing, modelling JavaScript `String.toLowerCase`
(they agree on ASCII, the range the assistant token lives in). -/
def toLowerList (l : List Char) : List Char := l.map Char.toLower

/-- JavaScript whitespace test, restricted to the ASCII whitespace characters
that can occur in this system's message contents. -/
def isWS (c : Char) : Bool := c == ' ' || c == '\t' || c == '\n' || c == '\r'

/-- JavaScript `String.trim`: strip whitespace from both ends. -/
def jsTrim (l : List Char) : List Char :=
  ((l.dropWhile isWS).reverse.dropWhile isWS).reverse

/-- JavaScript `String.split(sep)` on character lists: splits at every
occurrence of `sep`, keeping empty segments, never returning an empty list. -/
def jsSplit (sep : Char) : List Char → List (List Char)
  | [] => [[]]
  | c :: cs =>
    match jsSplit sep cs with
    | [] => [[c]]
    | h :: t => if c = sep then [] :: h :: t else (c :: h) :: t

/-- The assistant invocation token, the characters of `"@bot"`. -/
def botTokenL : List Char := ['@', 'b', 'o', 't']

/-- `server.js` line 144: `content.replace(/@bot/gi, '')` — delete every
case-insensitive, non-overlapping, leftmost-first occurrence of `@bot`.
The fuel argument is bounded by the list length; every recursive call strictly
shortens the list, so the zero-fuel branch is never reached. -/
def removeBotAux : Nat → List Char → List Char
  | 0, l => l
  | _ + 1, [] => []
  | fuel + 1, c :: cs =>
    if startsWithL botTokenL (toLowerList (c :: cs)) then removeBotAux fuel (cs.drop 3)
    else c :: removeBotAux fuel cs

/-- `content.replace(/@bot/gi, '')` at full fuel. -/
def removeBot (l : List Char) : List Char := removeBotAux l.length l

/-- A room identifier is a direct-message room when it starts with the
reserved `dm:` tag (`server.js` line 126: `room.startsWith('dm:')`). -/
def isDM (room : List Char) : Bool := startsWithL dmTagL room

/-! ## Data model -/

/-- The payload of a `chatMessage` emission (`server.js` lines 120-124):
content, author username, and the persistence-assigned creation time. -/
structure MessageData where
  content : List Char
  username : List Char
  createdAt : Nat
deriving DecidableEq

/-- A row of the `messages` table as written by `prisma.message.create`:
content, room key, author id, creation time. -/
structure MessageRecord where
  content : List Char
  room : List Char
  userId : Nat
  createdAt : Nat
deriving DecidableEq

/-- A row of the `users` table (id and unique username). -/
structure User where
  id : Nat
  username : List Char
deriving DecidableEq

/-- One server-to-client emission performed by the backend handlers. -/
inductive Emit where
  /-- `io.to(socketId).emit('chatMessage', _)` / `socket.emit('chatMessage', _)`:
  deliver to the single socket `sid`. -/
  | chatToSocket (sid : Nat) (m : MessageData)
  /-- `io.to(room).emit('chatMessage', _)`: deliver to every socket joined to `room`. -/
  | chatToRoom (room : List Char) (m : MessageData)
  /-- `socket.emit('loadHistory', _)`: deliver the room history to socket `sid`. -/
  | loadHistory (sid : Nat) (ms : List MessageData)
  /-- `io.emit('updateUserList', _)`: broadcast the online-username list to everyone. -/
  | userList (users : List (List Char))
  /-- `socket.to(room).emit('typing', {username})`: everyone in `room` except the sender. -/
  | typingExceptSender (room : List Char) (username : List Char)
  /-- `socket.to(room).emit('stopTyping', {username})`: everyone in `room` except the sender. -/
  | stopTypingExceptSender (room : List Char) (username : List Char)
deriving DecidableEq

/-- The connection-scoped data of one socket: the authenticated username
(`socket.username`), the socket identifier (`socket.id`), and the database id
of the authenticated user (`socket.user.id`). -/
structure SocketInfo where
  username : List Char
  sid : Nat
  userId : Nat
deriving DecidableEq

/-- Shared mutable server state: the `userSockets` map (username to socket id,
insertion-ordered) and the socket.io room memberships (socket id, room) pairs. -/
structure ServerState where
  userSockets : List (List Char × Nat)
  memberships : List (Nat × List Char)
deriving DecidableEq

/-- Outcome of the HTTP call inside `getAIResponse` once a key is configured. -/
inductive ApiOutcome where
  /-- the `fetch` call threw -/
  | fetchError
  /-- `response.ok` was false -/
  | notOk
  /-- a 200 response; the payload's `choices[0].message.content`, when present -/
  | ok (content : Option (List Char))
deriving DecidableEq

/-- Environment of `getAIResponse`: the optional `OPENAI_API_KEY` and the
outcome of the network call (consulted only when a key is configured). -/
structure AIEnv where
  apiKey : Option (List Char)
  outcome : ApiOutcome
deriving DecidableEq

/-- Environment of one `chatMessage` handler run: outcomes of the external
collaborators. `userOutcome`/`botOutcome` are the results of the two
`prisma.message.create` calls (the assigned `createdAt` on success, a thrown
error otherwise); `botUser` is the value returned by `getBotUser()` (`none`
models its internal catch returning null). -/
structure Env where
  ai : AIEnv
  userOutcome : Except Unit Nat
  botUser : Option User
  botOutcome : Except Unit Nat

/-- The observable effects of one `chatMessage` handler run: database writes,
socket emissions, and prompts passed to the generation service, each in order. -/
structure SendResult where
  dbWrites : List MessageRecord
  emits : List Emit
  aiCalls : List (List Char)
deriving DecidableEq

/-! ## ConnectionRegistry: the `userSockets` map -/

/-- JavaScript `Map.get` on the registry. -/
def regGet (reg : List (List Char × Nat)) (k : List Char) : Option Nat :=
  (reg.find? (fun p => decide (p.1 = k))).map Prod.snd

/-- JavaScript `Map.set`: overwrite in place if the key exists (keeping its
insertion position, as JS maps do), append otherwise. -/
def regSet (reg : List (List Char × Nat)) (k : List Char) (v : Nat) :
    List (List Char × Nat) :=
  if reg.any (fun p => decide (p.1 = k)) then
    reg.map (fun p => if p.1 = k then (k, v) else p)
  else reg ++ [(k, v)]

/-- JavaScript `Map.delete`: drop the entry with the given key (a JS map holds
at most one entry per key; dropping all matches is the same operation). -/
def regDelete (reg : List (List Char × Nat)) (k : List Char) :
    List (List Char × Nat) :=
  reg.filter (fun p => decide (p.1 ≠ k))

/-- JavaScript `Array.from(map.keys())`: the keys in insertion order. -/
def regKeys (reg : List (List Char × Nat)) : List (List Char) :=
  reg.map Prod.fst

/-- Socket ids identify connections uniquely, so no two registry entries carry
the same socket id. -/
def regOk (reg : List (List Char × Nat)) : Prop :=
  ∀ p ∈ reg, ∀ q ∈ reg, p.2 = q.2 → p = q

/-! ## RoomManager: socket.io room membership -/

/-- `socket.join(room)`: add the (socket, room) membership; idempotent. -/
def socketJoin (ms : List (Nat × List Char)) (sid : Nat) (room : List Char) :
    List (Nat × List Char) :=
  if (sid, room) ∈ ms then ms else ms ++ [(sid, room)]

/-- The rooms a socket currently belongs to. -/
def roomsOf (ms : List (Nat × List Char)) (sid : Nat) : List (List Char) :=
  (ms.filter (fun p => decide (p.1 = sid))).map Prod.snd

/-- The sockets currently joined to a room — the target set of
`io.to(room).emit`. -/
def socketsInRoom (st : ServerState) (room : List Char) : List Nat :=
  (st.memberships.filter (fun p => decide (p.2 = room))).map Prod.fst

/-- The connections an emission batch reaches, resolving room-targeted
emissions through the current memberships. -/
def deliveredSockets (st : ServerState) (es : List Emit) : List Nat :=
  es.flatMap fun e =>
    match e with
    | Emit.chatToSocket sid _ => [sid]
    | Emit.chatToRoom r _ => socketsInRoom st r
    | _ => []

/-! ## AssistantBridge -/

/-- `server.js` lines 52-83, `getAIResponse`: returns the fixed fallback when
`OPENAI_API_KEY` is unset, otherwise a string derived from the HTTP outcome
(`data.choices?.[0]?.message?.content || fallback`, where an absent or empty
content falls back). -/
def getAIResponse (env : AIEnv) (_message : List Char) : List Char :=
  match env.apiKey with
  | none => "AI service is not configured.".toList
  | some _ =>
    match env.outcome with
    | ApiOutcome.fetchError => "AI bot failed to respond.".toList
    | ApiOutcome.notOk => "AI service error. Please check your API key.".toList
    | ApiOutcome.ok none => "Sorry, I couldn\x27t understand that.".toList
    | ApiOutcome.ok (some c) =>
      if c.isEmpty then "Sorry, I couldn\x27t understand that.".toList else c

/-- The assistant identity's username, `'AI Bot'`. -/
def botNameN : List Char := "AI Bot".toList

/-- The persistence store consulted by `getBotUser`: the `users` table, the
next auto-increment id, and a count of the `findUnique` queries issued. -/
structure DB where
  users : List User
  nextId : Nat
  findCalls : Nat
deriving DecidableEq

/-- `server.js` lines 16-30, `getBotUser`: `findUnique` the `'AI Bot'` user,
create it when absent. Both storage calls sit inside the function's try/catch:
`findFails` models `prisma.user.findUnique` throwing and `createFails` models
`prisma.user.create` throwing; in either case the catch returns null (the
query was still issued, so the lookup counter advances, and no row is
written). -/
def getBotUser (db : DB) (findFails createFails : Bool) : Option User × DB :=
  if findFails then (none, { db with findCalls := db.findCalls + 1 })
  else
    match db.users.find? (fun u => decide (u.username = botNameN)) with
    | some u => (some u, { db with findCalls := db.findCalls + 1 })
    | none =>
      if createFails then (none, { db with findCalls := db.findCalls + 1 })
      else
        (some ⟨db.nextId, botNameN⟩,
         { db with users := db.users ++ [⟨db.nextId, botNameN⟩],
                   nextId := db.nextId + 1, findCalls := db.findCalls + 1 })

/-! ## MessageRouter: the `chatMessage` handler (`server.js` lines 112-165) -/

/-- Lines 126-140: fan-out of the freshly persisted message. A direct-message
room is parsed as `room.split(':')[1].split('-')`, the first listed name other
than the sender is looked up in `userSockets` and receives the message when
online, and the sender is always echoed; a named channel is broadcast via
`io.to(room)`. -/
def fanout (st : ServerState) (sender : SocketInfo) (room : List Char)
    (md : MessageData) : List Emit :=
  if isDM room then
    let usernames := jsSplit '-' ((jsSplit ':' room).getD 1 [])
    let otherUser := usernames.find? (fun u => decide (u ≠ sender.username))
    let recipientSocketId :=
      match otherUser with
      | some u => regGet st.userSockets u
      | none => none
    (match recipientSocketId with
     | some sid => [Emit.chatToSocket sid md]
     | none => []) ++ [Emit.chatToSocket sender.sid md]
  else
    [Emit.chatToRoom room md]

/-- Lines 143-161: the assistant block. When the content case-insensitively
starts with `@bot` and the room is not a direct-message room, the prompt is the
content with every `@bot` occurrence removed, trimmed; when it is non-empty the
generation service is called, the bot user resolved, and (when both succeed)
the reply is persisted and broadcast to the same room. A thrown bot-side
`create` is caught by the handler's catch after the user's fan-out happened. -/
def botBlock (env : Env) (room content : List Char) : SendResult :=
  if startsWithL botTokenL (toLowerList content) && !(isDM room) then
    let userPrompt := jsTrim (removeBot content)
    if userPrompt = [] then ⟨[], [], []⟩
    else
      let aiReply := getAIResponse env.ai userPrompt
      match env.botUser with
      | none => ⟨[], [], [userPrompt]⟩
      | some botUser =>
        match env.botOutcome with
        | Except.error _ => ⟨[], [], [userPrompt]⟩
        | Except.ok t2 =>
          ⟨[⟨aiReply, room, botUser.id, t2⟩],
           [Emit.chatToRoom room ⟨aiReply, botUser.username, t2⟩],
           [userPrompt]⟩
  else ⟨[], [], []⟩

/-- Lines 112-165, the whole `chatMessage` handler: persist the message (a
thrown `create` is caught and ends the handler with no effects), then fan out,
then run the assistant block. -/
def chatMessage (st : ServerState) (sender : SocketInfo) (env : Env)
    (room content : List Char) : SendResult :=
  match env.userOutcome with
  | Except.error _ => ⟨[], [], []⟩
  | Except.ok t =>
    let md : MessageData := ⟨content, sender.username, t⟩
    let bot := botBlock env room content
    ⟨⟨content, room, sender.userId, t⟩ :: bot.dbWrites,
     fanout st sender room md ++ bot.emits,
     bot.aiCalls⟩

/-! ## SessionCoordinator: connection lifecycle handlers -/

/-- Lines 86-90: on connection, register the username in `userSockets`
(replacing any prior entry) and broadcast the updated username list. -/
def connectionHandler (reg : List (List Char × Nat)) (username : List Char)
    (sid : Nat) : List (List Char × Nat) × List Emit :=
  let reg2 := regSet reg username sid
  (reg2, [Emit.userList (regKeys reg2)])

/-- Lines 92-110, the `joinRoom` handler: join the socket.io room, then load
the room history (on a thrown query, nothing is emitted). -/
def joinRoomHandler (ms : List (Nat × List Char)) (sid : Nat) (room : List Char)
    (history : Except Unit (List MessageData)) :
    List (Nat × List Char) × List Emit :=
  let ms2 := socketJoin ms sid room
  match history with
  | Except.ok msgs => (ms2, [Emit.loadHistory sid msgs])
  | Except.error _ => (ms2, [])

/-- Lines 167-169, the `typing` handler: relay to the room, excluding the sender. -/
def typingHandler (sender : SocketInfo) (room : List Char) : List Emit :=
  [Emit.typingExceptSender room sender.username]

/-- Lines 171-173, the `stopTyping` handler: relay to the room, excluding the sender. -/
def stopTypingHandler (sender : SocketInfo) (room : List Char) : List Emit :=
  [Emit.stopTypingExceptSender room sender.username]

/-- Lines 176-179, the `disconnect` handler: delete the username from
`userSockets` and broadcast the updated username list. The disconnecting
socket's id is not consulted. -/
def disconnectHandler (reg : List (List Char × Nat)) (username : List Char) :
    List (List Char × Nat) × List Emit :=
  let reg2 := regDelete reg username
  (reg2, [Emit.userList (regKeys reg2)])

/-! ## Client (`Chat.js`) -/

/-- A client-to-server emission from the React component. -/
inductive ClientEmit where
  | chatMessage (room content : List Char)
  | stopTyping (room : List Char)
deriving DecidableEq

/-- `Chat.js` lines 63-72, `handleSubmit`: emit the trimmed message followed by
a stop-typing signal, but only when the trimmed content is non-empty (JS
truthiness of `message.trim()`) and the socket is connected. -/
def handleSubmit (message : List Char) (connected : Bool) (room : List Char) :
    List ClientEmit :=
  if jsTrim message ≠ [] ∧ connected = true then
    [ClientEmit.chatMessage room (jsTrim message), ClientEmit.stopTyping room]
  else []

/-! ## Concrete test fixtures -/

/-- The name `alice`. -/
def aliceN : List Char := "alice".toList

/-- The name `bob`. -/
def bobN : List Char := "bob".toList

/-- The name `carol`. -/
def carolN : List Char := "carol".toList

/-- The channel `general`. -/
def generalN : List Char := "general".toList

/-- The channel `tech`. -/
def techN : List Char := "tech".toList

/-- The pair `a-b` / `c`. -/
def abN : List Char := "a-b".toList

/-- The single name `a`. -/
def aN : List Char := "a".toList

/-- The pair name `b-c`. -/
def bcN : List Char := "b-c".toList

/-- The single name `c`. -/
def cN : List Char := "c".toList

/-- Alice's connection: socket 1, database user id 10. -/
def senderA : SocketInfo := ⟨aliceN, 1, 10⟩

/-- A server state with alice, bob and carol online (sockets 1, 2, 3) and only
carol joined to `general`. -/
def stMain : ServerState := ⟨[(aliceN, 1), (bobN, 2), (carolN, 3)], [(3, generalN)]⟩

/-- An environment whose first persistence call succeeds at time 7 and in which
no assistant interaction happens. -/
def envPlain : Env := ⟨⟨none, ApiOutcome.fetchError⟩, Except.ok 7, none, Except.error ()⟩

/-- An environment whose first persistence call throws. -/
def envFail : Env := ⟨⟨none, ApiOutcome.fetchError⟩, Except.error (), none, Except.error ()⟩

/-- A concrete assistant user row. -/
def botUserW : User := ⟨99, botNameN⟩

/-- An environment with no generation-service key configured, the bot user
available, and both persistence calls succeeding (times 7 and 8). -/
def envBotOk : Env := ⟨⟨none, ApiOutcome.fetchError⟩, Except.ok 7, some botUserW, Except.ok 8⟩

/-- The content `hi`. -/
def hiN : List Char := "hi".toList

/-- The content `@bot`, whose prompt is empty after token removal and trim. -/
def atBotOnlyN : List Char := "@bot".toList

/-- The content `@bot what time is it`. -/
def botAskN : List Char := "@bot what time is it".toList

/-- The prompt `what time is it`. -/
def whatTimeN : List Char := "what time is it".toList

/-- A registry with alice on socket 1 and bob on socket 2. -/
def regTwo : List (List Char × Nat) := [(aliceN, 1), (bobN, 2)]

/-- The registry after alice connects on socket 1 and then reconnects on
socket 2 (the second registration replaces the first). -/
def regReconnect : List (List Char × Nat) :=
  (connectionHandler (connectionHandler [] aliceN 1).1 aliceN 2).1

/-- An empty users table. -/
def dbEmpty : DB := ⟨[], 0, 0⟩

/-- The users table after the first `getBotUser` run creates the assistant. -/
def dbAfterFirst : DB := (getBotUser dbEmpty false false).2

/-- The assistant row created by the first `getBotUser` run on `dbEmpty`. -/
def botUser0 : User := ⟨0, botNameN⟩

/-- The name `a-b` used as a whole username containing the separator. -/
def senderAB : SocketInfo := ⟨abN, 1, 10⟩

/-- A registry with the users `a-b` (socket 1) and `c` (socket 2) online. -/
def stHyph1 : ServerState := ⟨[(abN, 1), (cN, 2)], []⟩

/-- The name `bob-carol`, a username containing the separator. -/
def bobCarolN : List Char := "bob-carol".toList

/-- A registry with `alice` (socket 1), `bob-carol` (socket 2) and the
unrelated user `bob` (socket 3) all online. -/
def stHyph2 : ServerState := ⟨[(aliceN, 1), (bobCarolN, 2), (bobN, 3)], []⟩

/-! ## Helper lemmas -/

/-- Character codes determine characters. -/
theorem char_eq_of_toNat_eq {a b : Char} (h : a.toNat = b.toNat) : a = b :=
  Char.eq_of_val_eq (UInt32.ext h)

/-- `listLe` is antisymmetric. -/
theorem listLe_antisymm : ∀ a b : List Char, listLe a b = true → listLe b a = true → a = b := by
  intro a
  induction a with
  | nil =>
    intro b _ h2
    cases b with
    | nil => rfl
    | cons y ys => simp [listLe] at h2
  | cons x xs ih =>
    intro b h1 h2
    cases b with
    | nil => simp [listLe] at h1
    | cons y ys =>
      by_cases hxy : x.toNat < y.toNat
      · have hnyx : ¬ y.toNat < x.toNat := Nat.not_lt.mpr (Nat.le_of_lt hxy)
        simp [listLe, hxy, hnyx] at h2
      · by_cases hyx : y.toNat < x.toNat
        · simp [listLe, hxy, hyx] at h1
        · have hx : x = y :=
            char_eq_of_toNat_eq (Nat.le_antisymm (Nat.not_lt.mp hyx) (Nat.not_lt.mp hxy))
          subst hx
          simp only [listLe, if_neg hxy] at h1 h2
          rw [ih ys h1 h2]

/-- `listLe` is total. -/
theorem listLe_total : ∀ a b : List Char, listLe a b = false → listLe b a = true := by
  intro a
  induction a with
  | nil => intro b h; simp [listLe] at h
  | cons x xs ih =>
    intro b h
    cases b with
    | nil => simp [listLe]
    | cons y ys =>
      by_cases hxy : x.toNat < y.toNat
      · simp [listLe, hxy] at h
      · by_cases hyx : y.toNat < x.toNat
        · simp [listLe, hyx]
        · have hx : x = y :=
            char_eq_of_toNat_eq (Nat.le_antisymm (Nat.not_lt.mp hyx) (Nat.not_lt.mp hxy))
          subst hx
          simp only [listLe, if_neg hxy] at h ⊢
          exact ih ys h

/-- The sorted join underlying the room name is order-independent. -/
theorem getDMRoomName_comm (a b : List Char) : getDMRoomName a b = getDMRoomName b a := by
  unfold getDMRoomName
  cases hab : listLe a b
  · cases hba : listLe b a
    · exact absurd (listLe_total a b hab) (by simp [hba])
    · simp [hab, hba]
  · cases hba : listLe b a
    · simp [hab, hba]
    · have h := listLe_antisymm a b hab hba
      subst h
      rfl

/-- Splitting a separator-joined pair recovers the parts when neither part
contains the separator. -/
theorem append_sep_inj (sep : Char) :
    ∀ a c b d : List Char, sep ∉ a → sep ∉ c →
      a ++ sep :: b = c ++ sep :: d → a = c ∧ b = d := by
  intro a
  induction a with
  | nil =>
    intro c b d _ hc h
    cases c with
    | nil =>
      simp only [List.nil_append] at h
      exact ⟨rfl, (List.cons.injEq _ _ _ _ ▸ h).2⟩
    | cons y ys =>
      simp only [List.nil_append, List.cons_append, List.cons.injEq] at h
      exact absurd (by rw [h.1]; exact List.mem_cons_self y ys) hc
  | cons x xs ih =>
    intro c b d ha hc h
    cases c with
    | nil =>
      simp only [List.nil_append, List.cons_append, List.cons.injEq] at h
      exact absurd (by rw [← h.1]; exact List.mem_cons_self x xs) ha
    | cons y ys =>
      simp only [List.cons_append, List.cons.injEq] at h
      obtain ⟨h1, h2⟩ := h
      obtain ⟨e1, e2⟩ := ih ys b d
        (fun hm => ha (List.mem_cons_of_mem _ hm))
        (fun hm => hc (List.mem_cons_of_mem _ hm)) h2
      exact ⟨by rw [h1, e1], e2⟩

/-- The first three characters of any canonical direct-message identifier are
the reserved tag. -/
theorem canonical_take3 (a b : List Char) :
    (canonicalDirectRoom a b).take 3 = dmTagL := rfl

/-- A canonical direct-message identifier never equals a named channel. -/
theorem canonical_ne_channel (a b ch : List Char) (hch : ch ∈ namedChannels) :
    canonicalDirectRoom a b ≠ ch := by
  intro he
  have h3 : dmTagL = ch.take 3 := by rw [← canonical_take3 a b, he]
  have hall : ∀ c ∈ namedChannels, dmTagL ≠ c.take 3 := by decide
  exact hall ch hch h3

/-! ## Claim C1 -/

/-- Claim C1, counterexample to collision-freeness: the distinct unordered name
pairs `("a-b", "c")` and `("a", "b-c")` map to the same canonical
direct-message room identifier `dm:a-b-c`. -/
theorem c1_collision_counterexample :
    canonicalDirectRoom abN cN = canonicalDirectRoom aN bcN ∧
    ¬((abN = aN ∧ cN = bcN) ∨ (abN = bcN ∧ cN = aN)) := by decide

/-- Claim C1 (amended): the canonical direct-message room identifier is a pure,
order-independent function of the two participant names, never equals a
named-channel identifier (it carries the reserved `dm:` tag), and is
collision-free between distinct unordered pairs of names provided neither name
contains the separator character `-`. -/
theorem c1_dm_room_identifier :
    (∀ a b : List Char, canonicalDirectRoom a b = canonicalDirectRoom b a) ∧
    (∀ a b c d : List Char, '-' ∉ a → '-' ∉ b → '-' ∉ c → '-' ∉ d →
      canonicalDirectRoom a b = canonicalDirectRoom c d →
      (a = c ∧ b = d) ∨ (a = d ∧ b = c)) ∧
    (∀ a b ch : List Char, ch ∈ namedChannels → canonicalDirectRoom a b ≠ ch) := by
  refine ⟨fun a b => congrArg (dmTagL ++ ·) (getDMRoomName_comm a b), ?_,
    fun a b ch h => canonical_ne_channel a b ch h⟩
  intro a b c d ha hb hc hd h
  have h' : getDMRoomName a b = getDMRoomName c d := by
    simpa [canonicalDirectRoom, dmTagL] using h
  unfold getDMRoomName at h'
  cases hab : listLe a b <;> cases hcd : listLe c d <;>
    simp only [hab, hcd, if_true, if_false, Bool.false_eq_true] at h'
  · exact Or.inl ⟨(append_sep_inj '-' b d a c hb hd h').2,
      (append_sep_inj '-' b d a c hb hd h').1⟩
  · exact Or.inr ⟨(append_sep_inj '-' b c a d hb hc h').2,
      (append_sep_inj '-' b c a d hb hc h').1⟩
  · exact Or.inr ⟨(append_sep_inj '-' a d b c ha hd h').1,
      (append_sep_inj '-' a d b c ha hd h').2⟩
  · exact Or.inl ⟨(append_sep_inj '-' a c b d ha hc h').1,
      (append_sep_inj '-' a c b d ha hc h').2⟩

/-- Witness for C1: a concrete instance of commutativity and of the restricted
injectivity at separator-free names. -/
theorem c1_dm_room_identifier_witness :
    canonicalDirectRoom aliceN bobN = canonicalDirectRoom bobN aliceN ∧
    ((aliceN = aliceN ∧ bobN = bobN) ∨ (aliceN = bobN ∧ bobN = aliceN)) :=
  ⟨c1_dm_room_identifier.1 aliceN bobN,
   c1_dm_room_identifier.2.1 aliceN bobN aliceN bobN
     (by decide) (by decide) (by decide) (by decide) rfl⟩

/-- The fan-out of a persisted message always contains at least one emission
(the sender echo in a direct-message room, the room broadcast otherwise). -/
theorem fanout_ne_nil (st : ServerState) (sender : SocketInfo) (room : List Char)
    (md : MessageData) : fanout st sender room md ≠ [] := by
  simp only [fanout]
  split
  · simp
  · simp

/-! ## Claim C2 -/

/-- Claim C2, counterexample: a send-message request whose content is empty
(hence empty after trimming) from alice, whose connection has joined no room at
all, is persisted and broadcast anyway — the server performs no validation. -/
theorem c2_no_validation_counterexample :
    roomsOf stMain.memberships senderA.sid = [] ∧
    (chatMessage stMain senderA envPlain generalN []).dbWrites =
      [⟨[], generalN, 10, 7⟩] ∧
    (chatMessage stMain senderA envPlain generalN []).emits =
      [Emit.chatToRoom generalN ⟨[], aliceN, 7⟩] := by decide

/-- Claim C2 (amended): the server applies no local validation to send-message
requests — whenever persistence succeeds, the message is persisted and fanned
out regardless of emptiness or of the sender's memberships; only the reference
client refuses to emit a send whose content trims to empty. -/
theorem c2_no_server_validation :
    (∀ (st : ServerState) (sender : SocketInfo) (env : Env) (room content : List Char)
      (t : Nat),
      env.userOutcome = Except.ok t →
      (chatMessage st sender env room content).dbWrites.head? =
        some ⟨content, room, sender.userId, t⟩ ∧
      (chatMessage st sender env room content).emits ≠ []) ∧
    (∀ message room : List Char, jsTrim message = [] →
      handleSubmit message true room = []) := by
  constructor
  · intro st sender env room content t h
    refine ⟨by simp [chatMessage, h], ?_⟩
    simp only [chatMessage, h]
    intro hemits
    exact fanout_ne_nil st sender room ⟨content, sender.username, t⟩
      (List.append_eq_nil.mp hemits).1
  · intro message room h
    simp [handleSubmit, h]

/-- Witness for C2 at concrete inputs. -/
theorem c2_no_server_validation_witness :
    (chatMessage stMain senderA envPlain generalN hiN).dbWrites.head? =
      some ⟨hiN, generalN, 10, 7⟩ ∧
    handleSubmit "   ".toList true generalN = [] :=
  ⟨(c2_no_server_validation.1 stMain senderA envPlain generalN hiN 7 rfl).1,
   c2_no_server_validation.2 ("   ".toList) generalN (by decide)⟩

/-! ## Claim C3 -/

/-- Claim C3, counterexample to sender notification: when the persistence call
throws, the handler emits nothing at all — in particular no delivery-failed
signal reaches the sender's socket. -/
theorem c3_no_sender_signal_counterexample :
    (chatMessage stMain senderA envFail generalN hiN).emits = [] ∧
    (chatMessage stMain senderA envFail generalN hiN).dbWrites = [] := by decide

/-- Claim C3 (amended): a persistence failure aborts the whole send — no write,
no fan-out to anyone, no generation-service call — but no delivery-failed
signal is surfaced to the sender either; the error is only logged server-side. -/
theorem c3_persistence_failure_aborts :
    ∀ (st : ServerState) (sender : SocketInfo) (env : Env) (room content : List Char),
      env.userOutcome = Except.error () →
      chatMessage st sender env room content = ⟨[], [], []⟩ := by
  intro st sender env room content h
  simp [chatMessage, h]

/-- Witness for C3 at concrete inputs. -/
theorem c3_persistence_failure_aborts_witness :
    chatMessage stMain senderA envFail techN hiN = ⟨[], [], []⟩ :=
  c3_persistence_failure_aborts stMain senderA envFail techN hiN rfl

/-! ## Claim C5 -/

/-- Appending a fresh membership for a socket appends its room. -/
theorem roomsOf_append_self (ms : List (Nat × List Char)) (sid : Nat) (r' : List Char) :
    roomsOf (ms ++ [(sid, r')]) sid = roomsOf ms sid ++ [r'] := by
  simp [roomsOf, List.filter_append]

/-- Claim C5, counterexample: after `joinRoom('general')` then
`joinRoom('tech')` on the same connection, the connection belongs to two rooms
at once — the server's join never leaves the previous room. -/
theorem c5_two_rooms_counterexample :
    roomsOf (socketJoin (socketJoin [] 1 generalN) 1 techN) 1 = [generalN, techN] ∧
    ¬(roomsOf (socketJoin (socketJoin [] 1 generalN) 1 techN) 1).length ≤ 1 := by decide

/-- Claim C5 (amended): `socket.join` only accumulates memberships — every
previously joined room is kept and the new room is a member afterwards, so a
connection can belong to several rooms at one instant (the one-room-at-a-time
behavior exists only because the reference client opens a fresh connection when
it switches rooms). -/
theorem c5_join_accumulates :
    ∀ (ms : List (Nat × List Char)) (sid : Nat) (r r' : List Char),
      (r ∈ roomsOf ms sid → r ∈ roomsOf (socketJoin ms sid r') sid) ∧
      r' ∈ roomsOf (socketJoin ms sid r') sid := by
  intro ms sid r r'
  constructor
  · intro hr
    unfold socketJoin
    split
    · exact hr
    · rw [roomsOf_append_self]
      exact List.mem_append_left _ hr
  · unfold socketJoin
    split
    · next hmem =>
      simp only [roomsOf, List.mem_map]
      exact ⟨(sid, r'), List.mem_filter.mpr ⟨hmem, by simp⟩, rfl⟩
    · rw [roomsOf_append_self]
      exact List.mem_append_right _ (List.mem_singleton.mpr rfl)

/-- Witness for C5 at concrete inputs. -/
theorem c5_join_accumulates_witness :
    generalN ∈ roomsOf (socketJoin (socketJoin [] 1 generalN) 1 techN) 1 ∧
    techN ∈ roomsOf (socketJoin (socketJoin [] 1 generalN) 1 techN) 1 :=
  ⟨(c5_join_accumulates (socketJoin [] 1 generalN) 1 generalN techN).1 (by decide),
   (c5_join_accumulates (socketJoin [] 1 generalN) 1 generalN techN).2⟩

/-! ## Claims C7 and C8: the disconnect handler -/

/-- `Map.get` on a cons cell. -/
theorem regGet_cons (p : List Char × Nat) (l : List (List Char × Nat)) (v : List Char) :
    regGet (p :: l) v = if p.1 = v then some p.2 else regGet l v := by
  by_cases h : p.1 = v
  · rw [if_pos h]
    unfold regGet
    rw [List.find?_cons_of_pos _ (by simpa using h)]
    rfl
  · rw [if_neg h]
    unfold regGet
    rw [List.find?_cons_of_neg _ (by simpa using h)]

/-- `Map.delete` on a cons cell. -/
theorem regDelete_cons (p : List Char × Nat) (l : List (List Char × Nat)) (u : List Char) :
    regDelete (p :: l) u = if p.1 = u then regDelete l u else p :: regDelete l u := by
  by_cases h : p.1 = u
  · simp [regDelete, List.filter_cons, h]
  · simp [regDelete, List.filter_cons, h]

/-- Looking a key up after a `Map.delete`: gone for the deleted key, untouched
for every other key. -/
theorem regGet_delete (reg : List (List Char × Nat)) (u v : List Char) :
    regGet (regDelete reg u) v = if v = u then none else regGet reg v := by
  induction reg with
  | nil => simp [regGet, regDelete]
  | cons p l ih =>
    rw [regDelete_cons]
    by_cases hp : p.1 = u
    · rw [if_pos hp, ih, regGet_cons]
      by_cases hv : v = u
      · rw [if_pos hv, if_pos hv]
      · have hpv : ¬ p.1 = v := fun e => hv (by rw [← e, hp])
        rw [if_neg hv, if_neg hv, if_neg hpv]
    · rw [if_neg hp, regGet_cons, regGet_cons]
      by_cases hpv : p.1 = v
      · have hv : ¬ v = u := fun e => hp (by rw [hpv, e])
        rw [if_pos hpv, if_neg hv, if_pos hpv]
      · rw [if_neg hpv, ih, if_neg hpv]

/-- Claim C7, counterexample: when alice disconnects (even mid-typing — the
server keeps no typing state at all), the only emission is the updated
user-list broadcast; no stop-typing notification is sent to anyone. -/
theorem c7_no_stop_typing_counterexample :
    (disconnectHandler regTwo aliceN).2 = [Emit.userList [bobN]] := by decide

/-- Claim C7 (amended): on disconnect the server emits exactly one event — the
presence snapshot, from which the disconnected identity is absent (every
remaining listed identity differs from it); no stop-typing notification is
emitted, because the server holds no typing state and the typing relay only
runs on explicit client signals. -/
theorem c7_disconnect_presence_only :
    ∀ (reg : List (List Char × Nat)) (u : List Char),
      (disconnectHandler reg u).2 = [Emit.userList (regKeys (regDelete reg u))] ∧
      (∀ k ∈ regKeys (regDelete reg u), k ≠ u) := by
  intro reg u
  refine ⟨rfl, ?_⟩
  intro k hk
  simp only [regKeys, regDelete, List.mem_map] at hk
  obtain ⟨p, hp, hfst⟩ := hk
  have := (List.mem_filter.mp hp).2
  rw [hfst] at this
  exact of_decide_eq_true this

/-- Witness for C7 at concrete inputs. -/
theorem c7_disconnect_presence_only_witness :
    (disconnectHandler regTwo aliceN).2 = [Emit.userList [bobN]] ∧ bobN ≠ aliceN :=
  ⟨(c7_disconnect_presence_only regTwo aliceN).1,
   (c7_disconnect_presence_only regTwo aliceN).2 bobN (by decide)⟩

/-- Claim C8, counterexample: alice registers on socket 1, reconnects on
socket 2 (the registry then maps alice to socket 2), and the stale disconnect
of the superseded socket-1 session still removes the entry — the handler never
compares the entry against the caller's own connection. -/
theorem c8_stale_disconnect_counterexample :
    regGet regReconnect aliceN = some 2 ∧
    regGet (disconnectHandler regReconnect aliceN).1 aliceN = none := by decide

/-- Claim C8 (amended): the disconnect handler removes the identity's registry
entry unconditionally — whatever connection the entry maps to and whichever
connection is disconnecting — while entries of other identities are untouched. -/
theorem c8_unregister_unconditional :
    ∀ (reg : List (List Char × Nat)) (u v : List Char),
      regGet (disconnectHandler reg u).1 u = none ∧
      (v ≠ u → regGet (disconnectHandler reg u).1 v = regGet reg v) := by
  intro reg u v
  constructor
  · rw [show (disconnectHandler reg u).1 = regDelete reg u from rfl, regGet_delete,
      if_pos rfl]
  · intro hvu
    rw [show (disconnectHandler reg u).1 = regDelete reg u from rfl, regGet_delete,
      if_neg hvu]

/-- Witness for C8 at concrete inputs. -/
theorem c8_unregister_unconditional_witness :
    regGet (disconnectHandler regReconnect aliceN).1 aliceN = none ∧
    regGet (disconnectHandler regTwo aliceN).1 bobN = regGet regTwo bobN :=
  ⟨(c8_unregister_unconditional regReconnect aliceN bobN).1,
   (c8_unregister_unconditional regTwo aliceN bobN).2 (by decide)⟩

/-! ## Claim C9 -/

/-- If a search fails on a list, appending one matching element makes the
search return exactly that element. -/
theorem find?_append_right {α : Type} (p : α → Bool) :
    ∀ (l : List α) (x : α), l.find? p = none → p x = true →
      (l ++ [x]).find? p = some x := by
  intro l
  induction l with
  | nil =>
    intro x _ hx
    simp [List.find?_cons, hx]
  | cons a as ih =>
    intro x hl hx
    cases hpa : p a with
    | true => rw [List.find?_cons_of_pos _ hpa] at hl; exact absurd hl (by simp)
    | false =>
      rw [List.find?_cons_of_neg _ (by simp [hpa])] at hl
      rw [List.cons_append, List.find?_cons_of_neg _ (by simp [hpa])]
      exact ih x hl hx

/-- Claim C9, counterexample to caching: two sequential assistant invocations
issue two `findUnique` queries — the bot user is re-resolved on every call, not
resolved once per process and cached. -/
theorem c9_no_cache_counterexample :
    ((getBotUser (getBotUser dbEmpty false false).2 false false).2).findCalls = 2 ∧
    (getBotUser (getBotUser dbEmpty false false).2 false false).1 =
      (getBotUser dbEmpty false false).1 := by
  decide

/-- Claim C9 (amended): `getBotUser` runs the find-or-create against the store
on every invocation (no per-process cache); sequential invocations are stable
to this extent: once a call has returned the assistant user, a later call whose
lookup succeeds returns that same user, a later call whose lookup throws
returns null, and neither kind of later call writes a row — the singleton is
never duplicated. -/
theorem c9_find_or_create_stable :
    ∀ (db db' : DB) (u : User) (cf : Bool),
      getBotUser db false false = (some u, db') →
      ((getBotUser db' false cf).1 = some u ∧
        ((getBotUser db' false cf).2).users = db'.users) ∧
      ((getBotUser db' true cf).1 = none ∧
        ((getBotUser db' true cf).2).users = db'.users) := by
  intro db db' u cf h
  unfold getBotUser at h
  rw [if_neg (by simp : ¬ (false = true))] at h
  have hfind : db'.users.find? (fun x => decide (x.username = botNameN)) = some u := by
    cases hf : db.users.find? (fun x => decide (x.username = botNameN)) with
    | some u0 =>
      rw [hf] at h
      injection h with h1 h2
      injection h1 with h1
      subst h2
      show db.users.find? (fun x => decide (x.username = botNameN)) = some u
      rw [hf, h1]
    | none =>
      rw [hf] at h
      rw [if_neg (by simp : ¬ (false = true))] at h
      injection h with h1 h2
      injection h1 with h1
      subst h2
      show (db.users ++ [(⟨db.nextId, botNameN⟩ : User)]).find?
        (fun x => decide (x.username = botNameN)) = some u
      rw [← h1]
      exact find?_append_right _ db.users _ hf (by simp)
  refine ⟨⟨?_, ?_⟩, ⟨?_, ?_⟩⟩
  · unfold getBotUser
    rw [if_neg (by simp : ¬ (false = true)), hfind]
  · unfold getBotUser
    rw [if_neg (by simp : ¬ (false = true)), hfind]
  · unfold getBotUser
    rw [if_pos rfl]
  · unfold getBotUser
    rw [if_pos rfl]

/-- Witness for C9 at concrete inputs, covering both a succeeding and a
throwing later lookup. -/
theorem c9_find_or_create_stable_witness :
    ((getBotUser dbAfterFirst false true).1 = some botUser0 ∧
      ((getBotUser dbAfterFirst false true).2).users = dbAfterFirst.users) ∧
    ((getBotUser dbAfterFirst true true).1 = none ∧
      ((getBotUser dbAfterFirst true true).2).users = dbAfterFirst.users) :=
  c9_find_or_create_stable dbEmpty dbAfterFirst botUser0 true (by decide)

/-! ## Claim C10 -/

/-- Claim C10 (confirmed): a message that starts with the assistant token but
whose prompt is empty after removing every token occurrence and trimming makes
no generation-service call, persists no second message, and emits nothing
beyond the user's own fan-out. -/
theorem c10_empty_prompt_no_bot :
    ∀ (st : ServerState) (sender : SocketInfo) (env : Env) (room content : List Char)
      (t : Nat),
      env.userOutcome = Except.ok t →
      startsWithL botTokenL (toLowerList content) = true →
      jsTrim (removeBot content) = [] →
      (chatMessage st sender env room content).aiCalls = [] ∧
      (chatMessage st sender env room content).dbWrites =
        [⟨content, room, sender.userId, t⟩] ∧
      (chatMessage st sender env room content).emits =
        fanout st sender room ⟨content, sender.username, t⟩ := by
  intro st sender env room content t h1 h2 h3
  have hbot : botBlock env room content = ⟨[], [], []⟩ := by
    unfold botBlock
    cases hdm : isDM room
    · simp [h2, hdm, h3]
    · simp [h2, hdm]
  simp [chatMessage, h1, hbot]

/-- Witness for C10: the concrete content `@bot` in `general`. -/
theorem c10_empty_prompt_no_bot_witness :
    (chatMessage stMain senderA envPlain generalN atBotOnlyN).aiCalls = [] ∧
    (chatMessage stMain senderA envPlain generalN atBotOnlyN).dbWrites =
      [⟨atBotOnlyN, generalN, 10, 7⟩] ∧
    (chatMessage stMain senderA envPlain generalN atBotOnlyN).emits =
      fanout stMain senderA generalN ⟨atBotOnlyN, aliceN, 7⟩ :=
  c10_empty_prompt_no_bot stMain senderA envPlain generalN atBotOnlyN 7 rfl
    (by decide) (by decide)

/-! ## Claim C6 -/

/-- Claim C6, counterexample: the content `@bot` starts with the invocation
token in a non-direct-message room, yet — the prompt being empty after token
removal and trimming — the assistant is never invoked and no second message is
persisted, against the claim's universal invocation statement. -/
theorem c6_empty_prompt_counterexample :
    (chatMessage stMain senderA envBotOk generalN atBotOnlyN).aiCalls = [] ∧
    ((chatMessage stMain senderA envBotOk generalN atBotOnlyN).dbWrites).length = 1 := by
  decide

/-- Claim C6 (amended): for every message whose content case-insensitively
starts with the assistant token, whose room is not a direct-message room, and
whose prompt (content with every token occurrence removed, trimmed) is
non-empty, the assistant is invoked with that prompt; when the generation
service is unconfigured and the bot identity and persistence are available, a
second message from the assistant identity carrying the fixed fallback text is
persisted and broadcast to the same room, and no emission targets a
direct-message room. -/
theorem c6_bot_fallback_broadcast :
    ∀ (st : ServerState) (sender : SocketInfo) (env : Env) (room content : List Char)
      (t1 t2 : Nat) (bu : User),
      env.userOutcome = Except.ok t1 →
      startsWithL botTokenL (toLowerList content) = true →
      isDM room = false →
      jsTrim (removeBot content) ≠ [] →
      env.ai.apiKey = none →
      env.botUser = some bu →
      env.botOutcome = Except.ok t2 →
      (chatMessage st sender env room content).aiCalls = [jsTrim (removeBot content)] ∧
      (chatMessage st sender env room content).dbWrites =
        [⟨content, room, sender.userId, t1⟩,
         ⟨"AI service is not configured.".toList, room, bu.id, t2⟩] ∧
      (chatMessage st sender env room content).emits =
        [Emit.chatToRoom room ⟨content, sender.username, t1⟩,
         Emit.chatToRoom room ⟨"AI service is not configured.".toList, bu.username, t2⟩] ∧
      (∀ r m, Emit.chatToRoom r m ∈ (chatMessage st sender env room content).emits →
        isDM r = false) := by
  intro st sender env room content t1 t2 bu h1 h2 hdm h3 hkey hbu hbo
  have hbot : botBlock env room content =
      ⟨[⟨"AI service is not configured.".toList, room, bu.id, t2⟩],
       [Emit.chatToRoom room ⟨"AI service is not configured.".toList, bu.username, t2⟩],
       [jsTrim (removeBot content)]⟩ := by
    unfold botBlock getAIResponse
    rw [h2, hdm, hkey, hbu, hbo]
    simp [h3]
  have hfan : fanout st sender room ⟨content, sender.username, t1⟩ =
      [Emit.chatToRoom room ⟨content, sender.username, t1⟩] := by
    unfold fanout
    rw [hdm]
    simp
  have hmain : chatMessage st sender env room content =
      ⟨[⟨content, room, sender.userId, t1⟩,
        ⟨"AI service is not configured.".toList, room, bu.id, t2⟩],
       [Emit.chatToRoom room ⟨content, sender.username, t1⟩,
        Emit.chatToRoom room ⟨"AI service is not configured.".toList, bu.username, t2⟩],
       [jsTrim (removeBot content)]⟩ := by
    unfold chatMessage
    rw [h1, hbot]
    simp [hfan]
  refine ⟨by rw [hmain], by rw [hmain], by rw [hmain], ?_⟩
  intro r m hm
  rw [hmain] at hm
  simp only [List.mem_cons, List.mem_singleton, List.not_mem_nil, or_false] at hm
  rcases hm with hm | hm <;>
    · rw [show r = room from (Emit.chatToRoom.injEq _ _ _ _ ▸ hm :
        r = room ∧ _).1]
      exact hdm

/-- Witness for C6: alice sends `@bot what time is it` in `general` with the
generation service unconfigured. -/
theorem c6_bot_fallback_broadcast_witness :
    (chatMessage stMain senderA envBotOk generalN botAskN).aiCalls = [whatTimeN] ∧
    (chatMessage stMain senderA envBotOk generalN botAskN).dbWrites =
      [⟨botAskN, generalN, 10, 7⟩,
       ⟨"AI service is not configured.".toList, generalN, 99, 8⟩] := by
  have h := c6_bot_fallback_broadcast stMain senderA envBotOk generalN botAskN 7 8
    botUserW rfl (by decide) (by decide) (by decide) rfl rfl rfl
  exact ⟨h.1.trans (by decide), h.2.1⟩

/-! ## Claim C4 -/

/-- A JavaScript split never yields an empty array. -/
theorem jsSplit_ne_nil (sep : Char) : ∀ l : List Char, jsSplit sep l ≠ [] := by
  intro l
  cases l with
  | nil => simp [jsSplit]
  | cons c cs =>
    simp only [jsSplit]
    cases h : jsSplit sep cs with
    | nil => simp
    | cons hd tl => by_cases hc : c = sep <;> simp [hc]

/-- Splitting a list that does not contain the separator returns it whole. -/
theorem jsSplit_of_not_mem (sep : Char) :
    ∀ l : List Char, sep ∉ l → jsSplit sep l = [l] := by
  intro l
  induction l with
  | nil => intro _; rfl
  | cons c cs ih =>
    intro h
    have hc : ¬ c = sep := fun e => h (by rw [e]; exact List.mem_cons_self _ _)
    have hcs : sep ∉ cs := fun m => h (List.mem_cons_of_mem _ m)
    simp only [jsSplit, ih hcs]
    simp [hc]

/-- Splitting at the first separator occurrence peels off the prefix. -/
theorem jsSplit_append (sep : Char) :
    ∀ xs ys : List Char, sep ∉ xs →
      jsSplit sep (xs ++ sep :: ys) = xs :: jsSplit sep ys := by
  intro xs
  induction xs with
  | nil =>
    intro ys _
    simp only [List.nil_append, jsSplit]
    cases h : jsSplit sep ys with
    | nil => exact absurd h (jsSplit_ne_nil sep ys)
    | cons hd tl => simp
  | cons x xs ih =>
    intro ys h
    have hx : ¬ x = sep := fun e => h (by rw [e]; exact List.mem_cons_self _ _)
    have hxs : sep ∉ xs := fun m => h (List.mem_cons_of_mem _ m)
    rw [List.cons_append]
    simp only [jsSplit]
    rw [ih ys hxs]
    simp [hx]

/-- Parsing the canonical identifier as the server does —
`room.split(':')[1].split('-')` — recovers the two names in sorted order, for
separator-free and colon-free names. -/
theorem dm_parse (a b : List Char) (ha : '-' ∉ a) (hb : '-' ∉ b)
    (ha2 : ':' ∉ a) (hb2 : ':' ∉ b) :
    jsSplit '-' ((jsSplit ':' (canonicalDirectRoom a b)).getD 1 []) =
      if listLe a b then [a, b] else [b, a] := by
  have hcolon : ':' ∉ getDMRoomName a b := by
    unfold getDMRoomName
    intro hmem
    split at hmem <;>
    · rcases List.mem_append.mp hmem with h | h
      · first
        | exact ha2 h
        | exact hb2 h
      · rcases List.mem_cons.mp h with h | h
        · exact absurd h (by decide)
        · first
          | exact hb2 h
          | exact ha2 h
  have hsplit : jsSplit ':' (canonicalDirectRoom a b) =
      [['d', 'm'], getDMRoomName a b] := by
    have h1 : canonicalDirectRoom a b = ['d', 'm'] ++ ':' :: getDMRoomName a b := rfl
    rw [h1, jsSplit_append ':' ['d', 'm'] _ (by decide),
      jsSplit_of_not_mem ':' _ hcolon]
  rw [hsplit]
  show jsSplit '-' (getDMRoomName a b) = _
  unfold getDMRoomName
  cases hL : listLe a b
  · simp only [Bool.false_eq_true, if_false]
    rw [jsSplit_append '-' b a hb, jsSplit_of_not_mem '-' a ha]
  · simp only [if_true]
    rw [jsSplit_append '-' a b ha, jsSplit_of_not_mem '-' b hb]

/-- A successful registry lookup exhibits a registry entry. -/
theorem regGet_mem {reg : List (List Char × Nat)} {u : List Char} {s : Nat}
    (h : regGet reg u = some s) : (u, s) ∈ reg := by
  unfold regGet at h
  obtain ⟨p, hfind, hsnd⟩ := Option.map_eq_some'.mp h
  have hmem := List.mem_of_find?_eq_some hfind
  have hp1 : p.1 = u := by
    have hq := List.find?_some hfind
    simpa using hq
  have hps : p = (u, s) := by
    obtain ⟨p1, p2⟩ := p
    simp only at hp1 hsnd
    rw [hp1, hsnd]
  rw [hps] at hmem
  exact hmem

/-- In a registry whose socket ids identify entries, different identities
resolve to different sockets. -/
theorem regGet_ne_of_regOk {reg : List (List Char × Nat)} (hok : regOk reg)
    {u v : List Char} {s t : Nat} (hu : regGet reg u = some s)
    (hv : regGet reg v = some t) (huv : u ≠ v) : s ≠ t := by
  intro hst
  subst hst
  have h := hok (u, s) (regGet_mem hu) (v, s) (regGet_mem hv) rfl
  exact huv (congrArg Prod.fst h)

/-- The direct-message branch of the fan-out, computed: the message goes to the
looked-up socket of the other participant (when online) and is always echoed to
the sender, for a canonical room over distinct separator- and colon-free names
one of which is the sender. -/
theorem fanout_dm (st : ServerState) (sender : SocketInfo) (a b : List Char)
    (md : MessageData)
    (hs : sender.username = a ∨ sender.username = b) (hab : a ≠ b)
    (ha : '-' ∉ a) (hb : '-' ∉ b) (ha2 : ':' ∉ a) (hb2 : ':' ∉ b) :
    fanout st sender (canonicalDirectRoom a b) md =
      (match regGet st.userSockets (if sender.username = a then b else a) with
       | some sid => [Emit.chatToSocket sid md]
       | none => []) ++ [Emit.chatToSocket sender.sid md] := by
  have hdm : isDM (canonicalDirectRoom a b) = true := by
    simp [isDM, canonicalDirectRoom, dmTagL, startsWithL]
  have hfind : (jsSplit '-' ((jsSplit ':' (canonicalDirectRoom a b)).getD 1 [])).find?
      (fun u => decide (u ≠ sender.username)) =
      some (if sender.username = a then b else a) := by
    rw [dm_parse a b ha hb ha2 hb2]
    rcases hs with hsa | hsb
    · subst hsa
      have hba : ¬ (b = sender.username) := fun e => hab e.symm
      cases hL : listLe sender.username b <;> simp [hL, List.find?, hba]
    · subst hsb
      have hsa2 : ¬ (sender.username = a) := fun e => hab e.symm
      cases hL : listLe a sender.username <;> simp [hL, List.find?, hab, hsa2]
  simp only [fanout, hdm, if_true]
  rw [hfind]

/-- Claim C4, counterexample for participant names containing the separator:
(1) `a-b` messages the canonical room with `c` — `c` is online on socket 2,
yet only the sender's socket 1 receives the message, because
`room.split(':')[1].split('-')` turns `dm:a-b-c` into `["a","b","c"]` and the
resolved "other participant" `a` is offline; (2) `alice` messages the canonical
room with `bob-carol` — the parse resolves `bob`, so the unrelated online user
`bob` (socket 3) receives the DM while the actual participant `bob-carol`
(socket 2) does not. -/
theorem c4_separator_counterexample :
    (regGet stHyph1.userSockets cN = some 2 ∧
      deliveredSockets stHyph1
        (fanout stHyph1 senderAB (canonicalDirectRoom abN cN) ⟨hiN, abN, 5⟩) =
        [1]) ∧
    (regGet stHyph2.userSockets bobCarolN = some 2 ∧
      deliveredSockets stHyph2
        (fanout stHyph2 senderA (canonicalDirectRoom aliceN bobCarolN)
          ⟨hiN, aliceN, 5⟩) =
        [3, 1]) := by decide

/-- Claim C4 (amended): a message sent to a canonical direct-message room over
two distinct participant names neither of which contains the separator `-` or
the colon `:`, one of which is the sender, is delivered to the other
participant's socket exactly when that participant is registered online, is
echoed to the sender exactly once, and reaches no other connection; a message
sent to a named channel is delivered to exactly the sockets currently joined to
that room. -/
theorem c4_fanout_delivery :
    (∀ (st : ServerState) (sender : SocketInfo) (a b : List Char) (md : MessageData),
      regOk st.userSockets →
      regGet st.userSockets sender.username = some sender.sid →
      (sender.username = a ∨ sender.username = b) → a ≠ b →
      '-' ∉ a → '-' ∉ b → ':' ∉ a → ':' ∉ b →
      (∀ osid, regGet st.userSockets (if sender.username = a then b else a) = some osid →
        deliveredSockets st (fanout st sender (canonicalDirectRoom a b) md) =
          [osid, sender.sid] ∧ osid ≠ sender.sid) ∧
      (regGet st.userSockets (if sender.username = a then b else a) = none →
        deliveredSockets st (fanout st sender (canonicalDirectRoom a b) md) =
          [sender.sid])) ∧
    (∀ (st : ServerState) (sender : SocketInfo) (room : List Char) (md : MessageData),
      isDM room = false →
      deliveredSockets st (fanout st sender room md) = socketsInRoom st room) := by
  constructor
  · intro st sender a b md hok hself hs hab ha hb ha2 hb2
    have hfan := fanout_dm st sender a b md hs hab ha hb ha2 hb2
    have hneq : (if sender.username = a then b else a) ≠ sender.username := by
      rcases hs with h | h
      · rw [if_pos h]
        exact fun e => hab (h.symm.trans e.symm)
      · rw [if_neg (fun e => hab (e.symm.trans h))]
        exact fun e2 => hab (e2.trans h)
    constructor
    · intro osid hosid
      refine ⟨?_, regGet_ne_of_regOk hok hosid hself hneq⟩
      rw [hfan, hosid]
      simp [deliveredSockets]
    · intro hnone
      rw [hfan, hnone]
      simp [deliveredSockets]
  · intro st sender room md hdm
    simp [fanout, hdm, deliveredSockets]

/-- Witness for C4: alice (socket 1) messages the canonical room with bob, who
is online on socket 2; exactly bob's socket and alice's own socket receive it
(carol, joined to `general`, receives nothing). -/
theorem c4_fanout_delivery_witness :
    deliveredSockets stMain
      (fanout stMain senderA (canonicalDirectRoom aliceN bobN) ⟨hiN, aliceN, 5⟩) =
      [2, 1] ∧ (2 : Nat) ≠ 1 :=
  (c4_fanout_delivery.1 stMain senderA aliceN bobN ⟨hiN, aliceN, 5⟩
    (by unfold regOk; decide) (by decide) (Or.inl rfl) (by decide) (by decide)
    (by decide) (by decide) (by decide)).1 2 (by decide)
